import Mathlib

/-!
Shallow embedding of the Namada shell's `process_proposal` pipeline
(`apps/src/lib/node/ledger/shell/process_proposal.rs`).

Raw transaction bytes are `List Nat`.  External collaborators that the
source treats as oracles (deserialization, header validation, ciphertext
validation, decryption-correctness, balance lookup, fee schedule and
proof-of-work oracles) are fields of the `Shell` structure.  The decryption
order queue iterator is threaded explicitly: `process_single_tx` takes the
unconsumed part of the queue and returns the remaining unconsumed part.
-/

namespace Namada

/-- Cryptographic hashes, abstracted. -/
abbrev Hash := Nat

/-- Public keys, abstracted. -/
abbrev PubKey := Nat

/-- Token identifiers, abstracted. -/
abbrev Token := Nat

/-- Addresses.  Modelled from the spec: the payer derived from a public key
is an implicit address, while the fixed shielded-pool address is an internal
address; the two kinds never coincide. -/
inductive Address where
  | implicit (pk : PubKey)
  | internal (n : Nat)
deriving DecidableEq

/-- Modelled from the spec: `masp()`, the fixed shielded-pool address. -/
def masp : Address := Address.internal 0

/-- Modelled from the spec: `masp_tx_key().ref_to()`, the reserved sentinel
transaction key used for shielded-pool transactions. -/
def masp_tx_key : PubKey := 0

/-- A fee: an amount of some token (`Fee { amount, token }`). -/
structure Fee where
  amount : Nat
  token : Token
deriving DecidableEq

/-- The wrapper header: fee specification, payer public key, epoch, gas
limit, and the hash committing to the wrapped inner transaction. -/
structure WrapperTx where
  fee : Fee
  pk : PubKey
  epoch : Nat
  gas_limit : Nat
  tx_hash : Hash
deriving DecidableEq

/-- Modelled from the spec: `wtx.fee_payer()` derives the payer address
from the wrapper's declared public key. -/
def WrapperTx.fee_payer (w : WrapperTx) : Address := Address.implicit w.pk

/-- A decrypted transaction: either successfully opened (carrying the
header/code/data hash commitments of the revealed inner transaction) or
explicitly marked undecryptable (carrying the wrapper). -/
inductive DecryptedTx where
  | decrypted (header_hash code_hash data_hash : Hash) (has_valid_pow : Bool)
  | undecryptable (w : WrapperTx)
deriving DecidableEq

/-- Modelled from the spec: `tx.hash_commitment()`, the decrypted
transaction's claimed commitment to the inner transaction's header hash. -/
def DecryptedTx.hash_commitment : DecryptedTx → Hash
  | .decrypted h _ _ _ => h
  | .undecryptable w => w.tx_hash

/-- A content section of a transaction (code, data, or signature bytes). -/
inductive TxSection where
  | code (bytes : List Nat)
  | data (bytes : List Nat)
  | sig (bytes : List Nat)
deriving DecidableEq

/-- The header variant tag (`TxType`), a closed union. -/
inductive TxType where
  | raw (h : Nat)
  | protocol (p : Nat)
  | wrapper (w : WrapperTx)
  | decrypted (d : DecryptedTx)
deriving DecidableEq

/-- A decoded transaction: header variant, header hash, content sections. -/
structure Tx where
  header : TxType
  header_hash : Hash
  sections : List TxSection
deriving DecidableEq

/-- `TxInQueue`: one entry of the decryption-order queue fixed by the
previous block: the wrapper, the inner transaction, and the proof-of-work
validity flag. -/
structure TxInQueue where
  tx : WrapperTx
  inner_tx : Tx
  has_valid_pow : Bool
deriving DecidableEq

/-- The `ErrorCodes` enum of the shell. -/
inductive ErrorCodes where
  | Ok
  | InvalidTx
  | InvalidSig
  | WasmRuntimeError
  | InvalidOrder
  | ExtraTxs
deriving DecidableEq

/-- `u32::from(code)`: the ordinal wire value of each error code. -/
def ErrorCodes.toCode : ErrorCodes → Nat
  | .Ok => 0
  | .InvalidTx => 1
  | .InvalidSig => 2
  | .WasmRuntimeError => 3
  | .InvalidOrder => 4
  | .ExtraTxs => 5

/-- `TxResult { code, info }`: the per-transaction validation outcome. -/
structure TxResult where
  code : Nat
  info : String
deriving DecidableEq

/-- The block-level verdict (`ProposalStatus`). -/
inductive ProposalStatus where
  | accept
  | reject
deriving DecidableEq

/-- The `ProcessProposal` response: verdict plus per-transaction results. -/
structure ProcessProposalResponse where
  status : ProposalStatus
  tx_results : List TxResult
deriving DecidableEq

/-- The shell state visible to proposal processing.  Oracle collaborators
(`Tx::try_from`, `validate_header`, `validate_ciphertext`,
`verify_decrypted_correctly`, `get_balance`, `get_wrapper_tx_fees`,
`has_valid_pow_solution`, `hash_tx`) are fields; `tx_queue` is the
decryption-order queue carried from the previous block; `other_state`
stands for the rest of the node state, untouched by this pipeline. -/
structure Shell where
  decode : List Nat → Option Tx
  validate_header : Tx → Except String Unit
  validate_ciphertext : Tx → Bool
  verify_decrypted_correctly : DecryptedTx → Tx → Bool
  get_balance : Token → Address → Nat
  get_wrapper_tx_fees : Nat
  has_valid_pow_solution : WrapperTx → Bool
  hash_tx : List Nat → String
  tx_queue : List TxInQueue
  other_state : Nat

/-- Fee-payer resolution in the `Wrapper` arm: if the declared public key
is not the MASP sentinel key the payer is derived from the key, otherwise
the payer is the fixed shielded-pool address. -/
def resolve_fee_payer (wtx : WrapperTx) : Address :=
  if wtx.pk ≠ masp_tx_key then wtx.fee_payer else masp

/-- `process_single_tx`: classify one transaction, consuming the queue
cursor only in the `Decrypted` arm.  Returns the `TxResult` and the
remaining unconsumed queue. -/
def process_single_tx (s : Shell) (tx_bytes : List Nat)
    (tx_queue : List TxInQueue) : TxResult × List TxInQueue :=
  match s.decode tx_bytes with
  | none =>
      ({ code := ErrorCodes.InvalidTx.toCode,
         info := "The submitted transaction was not deserializable" },
       tx_queue)
  | some tx =>
      match s.validate_header tx with
      | Except.error err =>
          ({ code := ErrorCodes.InvalidSig.toCode, info := err }, tx_queue)
      | Except.ok _ =>
          match tx.header with
          | TxType.raw _ =>
              ({ code := ErrorCodes.InvalidTx.toCode,
                 info := "Transaction rejected: Non-encrypted transactions are not supported" },
               tx_queue)
          | TxType.protocol _ =>
              ({ code := ErrorCodes.InvalidTx.toCode,
                 info := "Protocol transactions are a fun new feature that is coming soon to a blockchain near you. Patience." },
               tx_queue)
          | TxType.decrypted dtx =>
              match tx_queue with
              | entry :: rest =>
                  if entry.inner_tx.header_hash ≠ dtx.hash_commitment then
                    ({ code := ErrorCodes.InvalidOrder.toCode,
                       info := "Process proposal rejected a decrypted transaction that violated the tx order determined in the previous block" },
                     rest)
                  else if s.verify_decrypted_correctly dtx entry.inner_tx then
                    ({ code := ErrorCodes.Ok.toCode,
                       info := "Process Proposal accepted this transaction" },
                     rest)
                  else
                    ({ code := ErrorCodes.InvalidTx.toCode,
                       info := "The encrypted payload of tx was incorrectly marked as un-decryptable" },
                     rest)
              | [] =>
                  ({ code := ErrorCodes.ExtraTxs.toCode,
                     info := "Received more decrypted txs than expected" },
                   tx_queue)
          | TxType.wrapper wtx =>
              if ¬ s.validate_ciphertext tx then
                ({ code := ErrorCodes.InvalidTx.toCode,
                   info := "The ciphertext of the wrapped tx " ++ s.hash_tx tx_bytes ++ " is invalid" },
                 tx_queue)
              else
                let fee_payer := resolve_fee_payer wtx
                let balance := s.get_balance wtx.fee.token fee_payer
                let has_valid_pow := s.has_valid_pow_solution wtx
                if has_valid_pow ∨ s.get_wrapper_tx_fees ≤ balance then
                  ({ code := ErrorCodes.Ok.toCode,
                     info := "Process proposal accepted this transaction" },
                   tx_queue)
                else
                  ({ code := ErrorCodes.InvalidTx.toCode,
                     info := "The address given does not have sufficient balance to pay fee" },
                   tx_queue)

/-- The mapping loop of `process_txs`, with the queue iterator state made
explicit: classify each transaction in order, threading the queue. -/
def process_txs_from (s : Shell) : List TxInQueue → List (List Nat) → List TxResult
  | _, [] => []
  | queue, tx_bytes :: rest =>
      let r := process_single_tx s tx_bytes queue
      r.1 :: process_txs_from s r.2 rest

/-- `process_txs`: check all the given txs against a fresh iterator over
the stored queue. -/
def process_txs (s : Shell) (txs : List (List Nat)) : List TxResult :=
  process_txs_from s s.tx_queue txs

/-- The queue iterator state after classifying a prefix of transactions. -/
def queue_after (s : Shell) : List TxInQueue → List (List Nat) → List TxInQueue
  | queue, [] => queue
  | queue, tx_bytes :: rest => queue_after s (process_single_tx s tx_bytes queue).2 rest

/-- `process_proposal`: classify all transactions, then reject the block
exactly when some result's code exceeds 3. -/
def process_proposal (s : Shell) (txs : List (List Nat)) : ProcessProposalResponse :=
  let tx_results := process_txs s txs
  { status :=
      if tx_results.any (fun res => decide (3 < res.code)) then
        ProposalStatus.reject
      else
        ProposalStatus.accept
    tx_results := tx_results }


/-- A concrete fee used by the witness shells. -/
def feeW : Fee := { amount := 0, token := 0 }

/-- A concrete wrapper header with the given public key. -/
def wrapW (pk : PubKey) : WrapperTx :=
  { fee := feeW, pk := pk, epoch := 0, gas_limit := 0, tx_hash := 0 }

/-- A concrete `Decrypted`-variant transaction claiming commitment 7. -/
def decTxW : Tx :=
  { header := TxType.decrypted (DecryptedTx.decrypted 7 0 0 false),
    header_hash := 1, sections := [] }

/-- A concrete `Raw`-variant transaction. -/
def rawTxW : Tx := { header := TxType.raw 0, header_hash := 3, sections := [] }

/-- A concrete `Wrapper`-variant transaction with the given public key. -/
def wrapTxW (pk : PubKey) : Tx :=
  { header := TxType.wrapper (wrapW pk), header_hash := 2, sections := [] }

/-- A queue entry whose inner transaction has header hash 3. -/
def entryW : TxInQueue :=
  { tx := wrapW 1, inner_tx := rawTxW, has_valid_pow := false }

/-- A queue entry whose inner transaction has header hash 7, matching the
commitment claimed by `decTxW`. -/
def entryMatchW : TxInQueue :=
  { tx := wrapW 1,
    inner_tx := { header := TxType.raw 0, header_hash := 7, sections := [] },
    has_valid_pow := false }

/-- A shell whose oracles are constant functions, used to evaluate the
pipeline on concrete inputs. -/
def oracleShell (t : Tx) (hdr : Except String Unit) (fees bal : Nat)
    (vdc : Bool) (q : List TxInQueue) : Shell :=
  { decode := fun _ => some t
    validate_header := fun _ => hdr
    validate_ciphertext := fun _ => true
    verify_decrypted_correctly := fun _ _ => vdc
    get_balance := fun _ _ => bal
    get_wrapper_tx_fees := fees
    has_valid_pow_solution := fun _ => false
    hash_tx := fun _ => ""
    tx_queue := q
    other_state := 0 }

/-- A concrete shell holding one matching queue entry. -/
def shellDetW : Shell := oracleShell decTxW (Except.ok ()) 0 0 true [entryMatchW]

/-- `shellDetW` with different unrelated node state. -/
def shellDetW2 : Shell := { shellDetW with other_state := 1 }



lemma process_single_tx_code_range (s : Shell) (b : List Nat) (q : List TxInQueue) :
    (process_single_tx s b q).1.code ≤ 5 ∧ (process_single_tx s b q).1.code ≠ 3 := by
  unfold process_single_tx
  repeat' split
  all_goals dsimp only [ErrorCodes.toCode]
  repeat' split
  all_goals ((try dsimp only); omega)

lemma process_txs_from_code_range (s : Shell) :
    ∀ (txs : List (List Nat)) (q : List TxInQueue),
      ∀ r ∈ process_txs_from s q txs, r.code ≤ 5 ∧ r.code ≠ 3
  | [], _, r, hr => by simp [process_txs_from] at hr
  | b :: bs, q, r, hr => by
      simp only [process_txs_from, List.mem_cons] at hr
      rcases hr with hr | hr
      · exact hr ▸ process_single_tx_code_range s b q
      · exact process_txs_from_code_range s bs _ r hr


/-- C1: the block verdict is `Reject` iff some per-transaction result has a
code greater than 3, and since produced codes lie in 0..5 and never 3, code
greater than 3 means exactly code 4 (`InvalidOrder`) or 5 (`ExtraTxs`); a
block whose results all carry codes 0..3 (including `InvalidTx` = 1 and
`InvalidSig` = 2) is accepted. -/
theorem process_proposal_reject_iff_code_gt3 (s : Shell) (txs : List (List Nat)) :
    ((process_proposal s txs).status = ProposalStatus.reject ↔
       ∃ r ∈ (process_proposal s txs).tx_results, 3 < r.code) ∧
    ∀ r ∈ (process_proposal s txs).tx_results,
      (3 < r.code ↔ (r.code = 4 ∨ r.code = 5)) := by
  have hany : ((process_txs s txs).any (fun res => decide (3 < res.code)) = true) ↔
      ∃ r ∈ process_txs s txs, 3 < r.code := by
    simp [List.any_eq_true]
  constructor
  · simp only [process_proposal]
    split
    · next hb => exact iff_of_true rfl (hany.mp hb)
    · next hb =>
        apply iff_of_false
        · exact fun h => ProposalStatus.noConfusion h
        · exact fun h => hb (hany.mpr h)
  · intro r hr
    have h : r.code ≤ 5 ∧ r.code ≠ 3 := process_txs_from_code_range s txs s.tx_queue r hr
    omega

/-- C2: a `Decrypted`-variant transaction that deserializes and passes the
header check, classified against a non-empty queue whose next entry's inner
transaction header hash differs from the claimed hash commitment, yields
`InvalidOrder` (code 4), and the queue cursor still advances past that
entry. -/
theorem decrypted_out_of_order_invalid_order (s : Shell) (b : List Nat) (tx : Tx)
    (d : DecryptedTx) (e : TxInQueue) (rest : List TxInQueue)
    (hdec : s.decode b = some tx)
    (hhdr : s.validate_header tx = Except.ok ())
    (hvar : tx.header = TxType.decrypted d)
    (hmis : e.inner_tx.header_hash ≠ d.hash_commitment) :
    process_single_tx s b (e :: rest) =
      ({ code := ErrorCodes.InvalidOrder.toCode,
         info := "Process proposal rejected a decrypted transaction that violated the tx order determined in the previous block" },
       rest) := by
  simp only [process_single_tx, hdec, hhdr, hvar]
  rw [if_pos hmis]

/-- Witness for C2 at a concrete shell: the claimed commitment is 7 while
the next queue entry's inner header hash is 3, so the result is code 4 and
the queue cursor has advanced. -/
theorem decrypted_out_of_order_invalid_order_witness :
    process_single_tx (oracleShell decTxW (Except.ok ()) 0 0 true [entryW]) [0]
        (entryW :: []) =
      ({ code := ErrorCodes.InvalidOrder.toCode,
         info := "Process proposal rejected a decrypted transaction that violated the tx order determined in the previous block" },
       []) :=
  decrypted_out_of_order_invalid_order
    (oracleShell decTxW (Except.ok ()) 0 0 true [entryW]) [0] decTxW
    (DecryptedTx.decrypted 7 0 0 false) entryW [] rfl rfl rfl (by decide)

lemma process_txs_from_length (s : Shell) :
    ∀ (txs : List (List Nat)) (q : List TxInQueue),
      (process_txs_from s q txs).length = txs.length
  | [], _ => rfl
  | b :: bs, q => by
      simp only [process_txs_from, List.length_cons]
      exact congrArg Nat.succ (process_txs_from_length s bs _)

lemma process_txs_from_getElem (s : Shell) :
    ∀ (txs : List (List Nat)) (q : List TxInQueue) (i : Nat),
      (process_txs_from s q txs)[i]? =
        (txs[i]?).map
          (fun b => (process_single_tx s b (queue_after s q (txs.take i))).1)
  | [], _, _ => by simp [process_txs_from]
  | b :: bs, q, 0 => by simp [process_txs_from, queue_after]
  | b :: bs, q, i + 1 => by
      simp only [process_txs_from, List.getElem?_cons_succ, List.take_succ_cons,
        queue_after]
      exact process_txs_from_getElem s bs _ i

/-- C3: `process_txs` returns exactly one result per input transaction, in
input order: the result list has the input list's length, and the i-th
result is the classification of the i-th input against the queue state left
by the first i transactions. -/
theorem process_txs_length_and_order (s : Shell) (txs : List (List Nat)) :
    (process_txs s txs).length = txs.length ∧
    ∀ i : Nat,
      (process_txs s txs)[i]? =
        (txs[i]?).map
          (fun b => (process_single_tx s b (queue_after s s.tx_queue (txs.take i))).1) :=
  ⟨process_txs_from_length s txs s.tx_queue,
   fun i => process_txs_from_getElem s txs s.tx_queue i⟩

lemma process_single_tx_empty_queue_decrypted (s : Shell) (b : List Nat)
    (tx : Tx) (d : DecryptedTx)
    (hdec : s.decode b = some tx)
    (hhdr : s.validate_header tx = Except.ok ())
    (hvar : tx.header = TxType.decrypted d) :
    process_single_tx s b [] =
      ({ code := ErrorCodes.ExtraTxs.toCode,
         info := "Received more decrypted txs than expected" }, []) := by
  simp only [process_single_tx, hdec, hhdr, hvar]

/-- C4: a `Decrypted`-variant transaction classified when the queue cursor
has no unconsumed entries yields `ExtraTxs` (code 5) and leaves the cursor
empty; hence in a proposal made of well-formed `Decrypted` transactions run
against an exhausted queue, every transaction yields `ExtraTxs`. -/
theorem decrypted_queue_exhausted_extra_txs (s : Shell) (b : List Nat)
    (tx : Tx) (d : DecryptedTx)
    (hdec : s.decode b = some tx)
    (hhdr : s.validate_header tx = Except.ok ())
    (hvar : tx.header = TxType.decrypted d) :
    process_single_tx s b [] =
      ({ code := ErrorCodes.ExtraTxs.toCode,
         info := "Received more decrypted txs than expected" }, []) ∧
    ∀ bs : List (List Nat),
      (∀ b2 ∈ bs, ∃ tx2 d2, s.decode b2 = some tx2 ∧
          s.validate_header tx2 = Except.ok () ∧ tx2.header = TxType.decrypted d2) →
      ∀ r ∈ process_txs_from s [] bs, r.code = ErrorCodes.ExtraTxs.toCode := by
  refine ⟨process_single_tx_empty_queue_decrypted s b tx d hdec hhdr hvar, ?_⟩
  intro bs
  induction bs with
  | nil => intro _ r hr; simp [process_txs_from] at hr
  | cons b2 bs ih =>
      intro hall r hr
      obtain ⟨tx2, d2, h1, h2, h3⟩ := hall b2 (by simp)
      have hsingle := process_single_tx_empty_queue_decrypted s b2 tx2 d2 h1 h2 h3
      simp only [process_txs_from, List.mem_cons] at hr
      rcases hr with hr | hr
      · rw [hr, hsingle]
      · rw [hsingle] at hr
        exact ih (fun b3 hb3 => hall b3 (List.mem_cons_of_mem _ hb3)) r hr

/-- Witness for C4 at a concrete shell with an exhausted queue. -/
theorem decrypted_queue_exhausted_extra_txs_witness :
    process_single_tx (oracleShell decTxW (Except.ok ()) 0 0 true []) [0] [] =
      ({ code := ErrorCodes.ExtraTxs.toCode,
         info := "Received more decrypted txs than expected" }, []) :=
  (decrypted_queue_exhausted_extra_txs
    (oracleShell decTxW (Except.ok ()) 0 0 true []) [0] decTxW
    (DecryptedTx.decrypted 7 0 0 false) rfl rfl rfl).1

/-- C5: for a `Wrapper` transaction with valid ciphertext and no valid
proof-of-work, a resolved fee payer balance strictly below the required
wrapper fee yields `InvalidTx` with the insufficient-balance message, and,
all else equal, a balance at or above the fee yields `Ok`. -/
theorem wrapper_fee_balance_threshold (s : Shell) (b : List Nat) (tx : Tx)
    (wtx : WrapperTx) (q : List TxInQueue)
    (hdec : s.decode b = some tx)
    (hhdr : s.validate_header tx = Except.ok ())
    (hvar : tx.header = TxType.wrapper wtx)
    (hct : s.validate_ciphertext tx = true)
    (hpow : s.has_valid_pow_solution wtx = false) :
    (s.get_balance wtx.fee.token (resolve_fee_payer wtx) < s.get_wrapper_tx_fees →
       process_single_tx s b q =
         ({ code := ErrorCodes.InvalidTx.toCode,
            info := "The address given does not have sufficient balance to pay fee" }, q)) ∧
    (s.get_wrapper_tx_fees ≤ s.get_balance wtx.fee.token (resolve_fee_payer wtx) →
       process_single_tx s b q =
         ({ code := ErrorCodes.Ok.toCode,
            info := "Process proposal accepted this transaction" }, q)) := by
  constructor
  · intro hlt
    simp only [process_single_tx, hdec, hhdr, hvar, hct, hpow]
    simp only [Bool.false_eq_true, false_or, not_true_eq_false, not_false_eq_true,
      if_true, if_false, ite_not]
    rw [if_neg (Nat.not_le.mpr hlt)]
  · intro hle
    simp only [process_single_tx, hdec, hhdr, hvar, hct, hpow]
    simp only [Bool.false_eq_true, false_or, not_true_eq_false, not_false_eq_true,
      if_true, if_false, ite_not]
    rw [if_pos hle]

/-- Witness for C5 at a concrete shell: required fee 5, balance 0. -/
theorem wrapper_fee_balance_threshold_witness :
    process_single_tx (oracleShell (wrapTxW 1) (Except.ok ()) 5 0 true []) [0] [] =
      ({ code := ErrorCodes.InvalidTx.toCode,
         info := "The address given does not have sufficient balance to pay fee" }, []) :=
  (wrapper_fee_balance_threshold
    (oracleShell (wrapTxW 1) (Except.ok ()) 5 0 true []) [0] (wrapTxW 1)
    (wrapW 1) [] rfl rfl rfl rfl rfl).1 (by decide)

lemma process_single_tx_queue_cases (s : Shell) (b : List Nat) (q : List TxInQueue) :
    (process_single_tx s b q).2 = q ∨
    (∃ tx d, s.decode b = some tx ∧ s.validate_header tx = Except.ok () ∧
       tx.header = TxType.decrypted d ∧ q ≠ [] ∧ (process_single_tx s b q).2 = q.tail) := by
  rcases hdec : s.decode b with _ | tx
  · left; simp [process_single_tx, hdec]
  · rcases hhdr : s.validate_header tx with err | u
    · left; simp [process_single_tx, hdec, hhdr]
    · rcases hvar : tx.header with h | p | wtx | dtx
      · left; simp [process_single_tx, hdec, hhdr, hvar]
      · left; simp [process_single_tx, hdec, hhdr, hvar]
      · left
        simp only [process_single_tx, hdec, hhdr, hvar]
        split_ifs <;> rfl
      · rcases q with _ | ⟨e, rest⟩
        · left; simp [process_single_tx, hdec, hhdr, hvar]
        · right
          refine ⟨tx, dtx, rfl, hhdr, hvar, by simp, ?_⟩
          simp only [process_single_tx, hdec, hhdr, hvar, List.tail_cons]
          split_ifs <;> rfl

/-- C6: within one call of the classifier, the queue cursor either stays
put or advances by exactly one entry; it is always a suffix of the incoming
cursor (so no entry is ever consumed twice across a proposal), and it moves
only when the transaction deserializes, passes the header check, and is a
`Decrypted`-variant transaction. -/
theorem queue_cursor_advances_only_on_decrypted (s : Shell) (b : List Nat)
    (q : List TxInQueue) :
    ((process_single_tx s b q).2 = q ∨ (process_single_tx s b q).2 = q.tail) ∧
    ((process_single_tx s b q).2 <:+ q) ∧
    ((process_single_tx s b q).2 ≠ q →
       ∃ tx d, s.decode b = some tx ∧ s.validate_header tx = Except.ok () ∧
         tx.header = TxType.decrypted d ∧ q ≠ [] ∧
         (process_single_tx s b q).2 = q.tail) := by
  rcases process_single_tx_queue_cases s b q with h | ⟨tx, d, h1, h2, h3, h4, h5⟩
  · exact ⟨Or.inl h, by rw [h], fun hne => absurd h hne⟩
  · refine ⟨Or.inr h5, ?_, fun _ => ⟨tx, d, h1, h2, h3, h4, h5⟩⟩
    rcases q with _ | ⟨e, rest⟩
    · exact absurd rfl h4
    · rw [h5]; exact ⟨[e], rfl⟩

/-- C7 counterexample: with a header-integrity oracle that rejects this
`Raw` transaction, `process_single_tx` returns code 2 (`InvalidSig`), not
`InvalidTx` = 1, so a `Raw`-variant transaction does not always yield
`InvalidTx`. -/
theorem raw_tx_invalid_tx_cex :
    (oracleShell rawTxW (Except.error "sig") 0 0 true []).decode [0] = some rawTxW ∧
    rawTxW.header = TxType.raw 0 ∧
    (process_single_tx (oracleShell rawTxW (Except.error "sig") 0 0 true []) [0] []).1.code ≠
      ErrorCodes.InvalidTx.toCode ∧
    (process_single_tx (oracleShell rawTxW (Except.error "sig") 0 0 true []) [0] []).1.code =
      ErrorCodes.InvalidSig.toCode := by
  refine ⟨rfl, rfl, ?_, rfl⟩
  decide

/-- C7 (amended): every `Raw`-variant transaction that deserializes and
passes the header integrity check yields `InvalidTx`, regardless of its
content sections. -/
theorem raw_tx_invalid_tx_after_header_check (s : Shell) (b : List Nat) (tx : Tx)
    (h0 : Nat) (q : List TxInQueue)
    (hdec : s.decode b = some tx)
    (hhdr : s.validate_header tx = Except.ok ())
    (hvar : tx.header = TxType.raw h0) :
    process_single_tx s b q =
      ({ code := ErrorCodes.InvalidTx.toCode,
         info := "Transaction rejected: Non-encrypted transactions are not supported" }, q) := by
  simp only [process_single_tx, hdec, hhdr, hvar]

/-- Witness for the amended C7 at a concrete shell. -/
theorem raw_tx_invalid_tx_after_header_check_witness :
    process_single_tx (oracleShell rawTxW (Except.ok ()) 0 0 true []) [0] [] =
      ({ code := ErrorCodes.InvalidTx.toCode,
         info := "Transaction rejected: Non-encrypted transactions are not supported" }, []) :=
  raw_tx_invalid_tx_after_header_check (oracleShell rawTxW (Except.ok ()) 0 0 true [])
    [0] rawTxW 0 [] rfl rfl rfl

/-- C8: for a `Wrapper` transaction with valid ciphertext, the fee payer
used in the balance lookup is the fixed shielded-pool address exactly when
the declared public key is the MASP sentinel key, and otherwise the address
derived from the declared key; the `Wrapper` arm of `process_single_tx`
decides the fee check at the balance of that resolved payer. -/
theorem wrapper_fee_payer_resolution (s : Shell) (b : List Nat) (tx : Tx)
    (wtx : WrapperTx) (q : List TxInQueue)
    (hdec : s.decode b = some tx)
    (hhdr : s.validate_header tx = Except.ok ())
    (hvar : tx.header = TxType.wrapper wtx)
    (hct : s.validate_ciphertext tx = true) :
    (resolve_fee_payer wtx = masp ↔ wtx.pk = masp_tx_key) ∧
    (wtx.pk ≠ masp_tx_key → resolve_fee_payer wtx = wtx.fee_payer) ∧
    process_single_tx s b q =
      (if s.has_valid_pow_solution wtx ∨
          s.get_wrapper_tx_fees ≤ s.get_balance wtx.fee.token (resolve_fee_payer wtx) then
         ({ code := ErrorCodes.Ok.toCode,
            info := "Process proposal accepted this transaction" }, q)
       else
         ({ code := ErrorCodes.InvalidTx.toCode,
            info := "The address given does not have sufficient balance to pay fee" }, q)) := by
  refine ⟨?_, ?_, ?_⟩
  · unfold resolve_fee_payer
    by_cases hpk : wtx.pk = masp_tx_key
    · simp [hpk]
    · simp [hpk, WrapperTx.fee_payer, masp]
  · intro hpk
    simp [resolve_fee_payer, hpk]
  · simp only [process_single_tx, hdec, hhdr, hvar, hct, not_true_eq_false,
      if_false, ite_false]

/-- Witness for C8: with the sentinel key as declared key, the resolved
payer is the shielded-pool address. -/
theorem wrapper_fee_payer_resolution_witness :
    resolve_fee_payer (wrapW 0) = masp ↔ (wrapW 0).pk = masp_tx_key :=
  (wrapper_fee_payer_resolution (oracleShell (wrapTxW 0) (Except.ok ()) 0 0 true [])
    [0] (wrapTxW 0) (wrapW 0) [] rfl rfl rfl rfl).1

lemma process_single_tx_congr (s₁ s₂ : Shell)
    (h₁ : s₁.decode = s₂.decode)
    (h₂ : s₁.validate_header = s₂.validate_header)
    (h₃ : s₁.validate_ciphertext = s₂.validate_ciphertext)
    (h₄ : s₁.verify_decrypted_correctly = s₂.verify_decrypted_correctly)
    (h₅ : s₁.get_balance = s₂.get_balance)
    (h₆ : s₁.get_wrapper_tx_fees = s₂.get_wrapper_tx_fees)
    (h₇ : s₁.has_valid_pow_solution = s₂.has_valid_pow_solution)
    (h₈ : s₁.hash_tx = s₂.hash_tx) :
    ∀ (b : List Nat) (q : List TxInQueue),
      process_single_tx s₁ b q = process_single_tx s₂ b q := by
  rcases s₁ with ⟨f₁, f₂, f₃, f₄, f₅, f₆, f₇, f₈, f₉, f₁₀⟩
  rcases s₂ with ⟨g₁, g₂, g₃, g₄, g₅, g₆, g₇, g₈, g₉, g₁₀⟩
  dsimp only at h₁ h₂ h₃ h₄ h₅ h₆ h₇ h₈
  subst h₁ h₂ h₃ h₄ h₅ h₆ h₇ h₈
  intro b q
  rfl

lemma process_txs_from_congr (s₁ s₂ : Shell)
    (h : ∀ b q, process_single_tx s₁ b q = process_single_tx s₂ b q) :
    ∀ (txs : List (List Nat)) (q : List TxInQueue),
      process_txs_from s₁ q txs = process_txs_from s₂ q txs
  | [], _ => rfl
  | b :: bs, q => by
      simp only [process_txs_from, h b q]
      exact congrArg _ (process_txs_from_congr s₁ s₂ h bs _)

/-- C9: classification is a pure function of the oracle state, the
decryption-order queue and the input bytes: two shells agreeing on those
(but possibly differing in unrelated node state) give identical result
lists and identical proposal responses. -/
theorem process_txs_deterministic (s₁ s₂ : Shell) (txs : List (List Nat))
    (h₁ : s₁.decode = s₂.decode)
    (h₂ : s₁.validate_header = s₂.validate_header)
    (h₃ : s₁.validate_ciphertext = s₂.validate_ciphertext)
    (h₄ : s₁.verify_decrypted_correctly = s₂.verify_decrypted_correctly)
    (h₅ : s₁.get_balance = s₂.get_balance)
    (h₆ : s₁.get_wrapper_tx_fees = s₂.get_wrapper_tx_fees)
    (h₇ : s₁.has_valid_pow_solution = s₂.has_valid_pow_solution)
    (h₈ : s₁.hash_tx = s₂.hash_tx)
    (h₉ : s₁.tx_queue = s₂.tx_queue) :
    process_txs s₁ txs = process_txs s₂ txs ∧
    process_proposal s₁ txs = process_proposal s₂ txs := by
  have hsingle := process_single_tx_congr s₁ s₂ h₁ h₂ h₃ h₄ h₅ h₆ h₇ h₈
  have htxs : process_txs s₁ txs = process_txs s₂ txs := by
    unfold process_txs
    rw [h₉]
    exact process_txs_from_congr s₁ s₂ hsingle txs s₂.tx_queue
  refine ⟨htxs, ?_⟩
  unfold process_proposal
  rw [htxs]

/-- Witness for C9: two shells differing only in unrelated node state give
the same result list. -/
theorem process_txs_deterministic_witness :
    process_txs shellDetW [[0]] = process_txs shellDetW2 [[0]] :=
  (process_txs_deterministic shellDetW shellDetW2 [[0]]
    rfl rfl rfl rfl rfl rfl rfl rfl rfl).1

/-- C10: a `Decrypted`-variant transaction that reaches variant
classification with an entry available consumes that entry no matter the
outcome; in particular, when the hash commitment matches but the
decryption-correctness check fails, the result is `InvalidTx` and the entry
is still consumed. -/
theorem decrypted_consumes_queue_entry (s : Shell) (b : List Nat) (tx : Tx)
    (d : DecryptedTx) (e : TxInQueue) (rest : List TxInQueue)
    (hdec : s.decode b = some tx)
    (hhdr : s.validate_header tx = Except.ok ())
    (hvar : tx.header = TxType.decrypted d) :
    (process_single_tx s b (e :: rest)).2 = rest ∧
    (e.inner_tx.header_hash = d.hash_commitment →
      s.verify_decrypted_correctly d e.inner_tx = false →
      (process_single_tx s b (e :: rest)).1 =
        { code := ErrorCodes.InvalidTx.toCode,
          info := "The encrypted payload of tx was incorrectly marked as un-decryptable" }) := by
  constructor
  · simp only [process_single_tx, hdec, hhdr, hvar]
    split_ifs <;> rfl
  · intro hmatch hfail
    simp only [process_single_tx, hdec, hhdr, hvar]
    rw [if_neg (by simp [hmatch]), if_neg (by simp [hfail])]

/-- Witness for C10: matching commitment, failing decryption-correctness
oracle; the entry is consumed and the result is `InvalidTx`. -/
theorem decrypted_consumes_queue_entry_witness :
    (process_single_tx (oracleShell decTxW (Except.ok ()) 0 0 false []) [0]
        (entryMatchW :: [])).2 = [] ∧
    (process_single_tx (oracleShell decTxW (Except.ok ()) 0 0 false []) [0]
        (entryMatchW :: [])).1 =
      { code := ErrorCodes.InvalidTx.toCode,
        info := "The encrypted payload of tx was incorrectly marked as un-decryptable" } :=
  ⟨(decrypted_consumes_queue_entry (oracleShell decTxW (Except.ok ()) 0 0 false [])
      [0] decTxW (DecryptedTx.decrypted 7 0 0 false) entryMatchW [] rfl rfl rfl).1,
   (decrypted_consumes_queue_entry (oracleShell decTxW (Except.ok ()) 0 0 false [])
      [0] decTxW (DecryptedTx.decrypted 7 0 0 false) entryMatchW [] rfl rfl rfl).2 rfl rfl⟩

end Namada
